import Mathlib

/-!
Verification of the incremental weather-data ingestion engine
(`src/unnamed/part_001`, the watermark-optimized fetcher).

The engine's pure logic is embedded shallowly:

* `Reading` models one fetched observation (`{timestamp, value, sensorKey, unit}`).
  Sensor values are only copied around, never computed with, so they are
  modelled as integers.
* `Meta` models a stored watermark record at `sensorMeta/<key>`:
  `{lastTimestamp, latestValue, lastUpdated}`.  `latestValue` is optional
  because stored records may lack the field.
* `sortByTs` models the JavaScript stable `Array.prototype.sort` with the
  comparator `(a, b) => a.timestamp - b.timestamp`; any stable sort by the
  same key produces the same list, and insertion sort is stable.
* `mergeStep` embeds the merge/filter step of `main` (filter strictly above
  the watermark, sort ascending, take the newest record as the new
  watermark; an empty selection leaves the watermark unchanged).
* `fetchSensorModel` embeds the retry loop of `fetchSensor`, driven by an
  environment giving each attempt's outcome; `none` models the JavaScript
  `undefined` that the loop produces when it falls off the end.
* `processSensor` embeds one iteration of the per-sensor loop of `main`,
  with the success of the multi-location Firebase update as a parameter;
  `none` models a thrown TypeError that aborts the whole run.
* `appendStep` embeds the append block of `main` (read `recordCount`, write
  each record at the next index, update count, stamp, and watermark).
-/

namespace WeatherFetch

/-- One fetched observation, as built in `fetchSensor` from an API
`[timestamp, value]` pair. -/
structure Reading where
  timestamp : Nat
  value : Int
  sensorKey : String
  unit : String
  deriving Repr, DecidableEq

/-- A stored watermark record at `sensorMeta/<key>`. -/
structure Meta where
  lastTimestamp : Nat
  latestValue : Option Int
  lastUpdated : Nat
  deriving Repr, DecidableEq

/-- Timestamp order on readings, the key of the sort comparator
`(a, b) => a.timestamp - b.timestamp`. -/
def tsLE (a b : Reading) : Prop := a.timestamp ≤ b.timestamp

/-- Strict timestamp order on readings. -/
def tsLT (a b : Reading) : Prop := a.timestamp < b.timestamp

instance : DecidableRel tsLE := fun a b => Nat.decLe a.timestamp b.timestamp

instance : DecidableRel tsLT := fun a b => Nat.decLt a.timestamp b.timestamp

instance : IsTotal Reading tsLE := ⟨fun a b => Nat.le_total a.timestamp b.timestamp⟩

instance : IsTrans Reading tsLE := ⟨fun _ _ _ h h' => Nat.le_trans h h'⟩

/-- The JavaScript stable sort by ascending timestamp, modelled by insertion
sort (stable, same comparator key). -/
def sortByTs (l : List Reading) : List Reading := l.insertionSort tsLE

/-- The merge/filter step of `main` for one sensor: keep the fetched records
strictly newer than the watermark, sort them ascending by timestamp, and,
when any remain, build the new watermark from the newest one
(`{lastTimestamp: newest.timestamp, latestValue: newest.value, lastUpdated: now}`).
When none remain the watermark is unchanged. -/
def mergeStep (fetched : List Reading) (w : Meta) (now : Nat) : List Reading × Meta :=
  match (sortByTs (fetched.filter fun r => w.lastTimestamp < r.timestamp)).getLast? with
  | none => ([], w)
  | some newest =>
      (sortByTs (fetched.filter fun r => w.lastTimestamp < r.timestamp),
       { lastTimestamp := newest.timestamp
         latestValue := some newest.value
         lastUpdated := now })

theorem sortByTs_perm (l : List Reading) : List.Perm (sortByTs l) l :=
  List.perm_insertionSort tsLE l

theorem sortByTs_sorted (l : List Reading) : (sortByTs l).Sorted tsLE :=
  List.sorted_insertionSort tsLE l

theorem sortByTs_eq_nil_iff {l : List Reading} : sortByTs l = [] ↔ l = [] := by
  constructor
  · intro h
    exact List.Perm.eq_nil (h ▸ (sortByTs_perm l).symm)
  · intro h
    subst h
    rfl

/-- In a list sorted by `tsLE`, every member's timestamp is bounded by the
last element's timestamp. -/
theorem timestamp_le_getLast_of_sorted :
    ∀ {l : List Reading}, l.Sorted tsLE → ∀ {r : Reading}, r ∈ l →
      ∀ (h : l ≠ []), r.timestamp ≤ (l.getLast h).timestamp := by
  intro l
  induction l with
  | nil => intro _ _ hr h; exact absurd rfl h
  | cons a t ih =>
      intro hs r hr h
      cases t with
      | nil =>
          simp only [List.mem_singleton] at hr
          subst hr
          simp [List.getLast]
      | cons b t' =>
          have hlast : (a :: b :: t').getLast h = (b :: t').getLast (by simp) := by
            simp [List.getLast]
          rw [hlast]
          rcases List.mem_cons.mp hr with h1 | h2
          · subst h1
            have hab : tsLE r b := (List.sorted_cons.mp hs).1 b (by simp)
            exact Nat.le_trans hab (ih (List.sorted_cons.mp hs).2 (by simp) (by simp))
          · exact ih (List.sorted_cons.mp hs).2 h2 (by simp)

theorem mergeStep_increment_perm (fetched : List Reading) (w : Meta) (now : Nat) :
    List.Perm (mergeStep fetched w now).1
      (fetched.filter fun r => w.lastTimestamp < r.timestamp) := by
  unfold mergeStep
  split
  · next hnone =>
      have : sortByTs (fetched.filter fun r => w.lastTimestamp < r.timestamp) = [] :=
        List.getLast?_eq_none_iff.mp hnone
      rw [sortByTs_eq_nil_iff] at this
      simp [this]
  · next newest hsome =>
      exact sortByTs_perm _

theorem mergeStep_increment_sorted (fetched : List Reading) (w : Meta) (now : Nat) :
    ((mergeStep fetched w now).1).Sorted tsLE := by
  unfold mergeStep
  split
  · exact List.sorted_nil
  · exact sortByTs_sorted _

/-- The outcome the upstream API gives one attempt of the retry loop:
an HTTP 429 rate-limit response, a thrown error or non-2xx response, or a
successful JSON body parsed into raw timestamp-value pairs. -/
inductive AttemptOutcome where
  | rateLimited
  | transientFail
  | ok (records : List (Nat × Int))
  deriving Repr, DecidableEq

/-- The object `fetchSensor` returns: parsed readings plus an error flag
when retries were exhausted on a transient failure. -/
structure FetchResult where
  data : List Reading
  hasError : Bool
  deriving Repr, DecidableEq

/-- The exponential backoff delay on a rate-limit response:
`Math.pow(2, attempt) * 2000`. -/
def rateLimitWait (attempt : Nat) : Nat := 2 ^ attempt * 2000

/-- The retry loop of `fetchSensor`, one step per loop iteration.
`env` gives the outcome of each attempt, `remaining` counts the iterations
the `for` loop still has, and `attempt` is the current loop index.
A 429 waits and continues; a transient failure on the final attempt returns
an empty tagged result, otherwise waits and continues; success returns the
mapped readings.  Falling off the loop yields `none`, the JavaScript
`undefined`. -/
def fetchLoop (env : Nat → AttemptOutcome) (sensorKey unit : String) :
    Nat → Nat → Option FetchResult
  | _, 0 => none
  | attempt, remaining + 1 =>
      match env attempt with
      | .rateLimited => fetchLoop env sensorKey unit (attempt + 1) remaining
      | .ok records =>
          some { data := records.map fun p =>
                   { timestamp := p.1, value := p.2, sensorKey := sensorKey, unit := unit }
                 hasError := false }
      | .transientFail =>
          if remaining = 0 then some { data := [], hasError := true }
          else fetchLoop env sensorKey unit (attempt + 1) remaining

/-- `fetchSensor(sensorKey, sensorConfig, startTime, endTime, retries)`:
run the retry loop from attempt 0 with `retries` iterations available. -/
def fetchSensorModel (env : Nat → AttemptOutcome) (sensorKey unit : String)
    (retries : Nat) : Option FetchResult :=
  fetchLoop env sensorKey unit 0 retries

/-- What one iteration of the per-sensor loop in `main` leaves behind for
its sensor: the `latestValues[sensorKey]` summary entry (`none` when the
sensor stays excluded), the persisted watermark at `sensorMeta/<key>`, the
indexed writes into `sensorData/<key>/data`, the written `recordCount`,
whether `successfulSensors` was incremented, and the contribution to
`totalNewRecords`. -/
structure StepResult where
  latestValue : Option Int
  newMeta : Option Meta
  writes : List (Nat × Reading)
  newRecordCount : Option Nat
  successful : Bool
  addedRecords : Nat
  deriving Repr, DecidableEq

/-- One iteration of the per-sensor loop of `main` (the fetch has already
produced `result`; `meta0` is this sensor's entry of the bulk `sensorMeta`
read; `storedCount` is what the `recordCount` point read returns; `appendOk`
says whether the multi-location Firebase update succeeds).  A `none` result
models the JavaScript `undefined` from an exhausted rate-limited fetch:
`main` then dereferences `result.data`, the TypeError propagates, and the
whole run aborts — modelled as `none` here. -/
def processSensor (meta0 : Option Meta) (result : Option FetchResult)
    (storedCount : Option Nat) (appendOk : Bool) (now : Nat) : Option StepResult :=
  match result with
  | none => none
  | some res =>
      let lastTs := (meta0.map Meta.lastTimestamp).getD 0
      match res.data with
      | [] =>
          match meta0.bind Meta.latestValue with
          | some v =>
              some { latestValue := some v, newMeta := meta0, writes := [],
                     newRecordCount := none, successful := true, addedRecords := 0 }
          | none =>
              some { latestValue := none, newMeta := meta0, writes := [],
                     newRecordCount := none, successful := false, addedRecords := 0 }
      | r :: rs =>
          let trulyNewRecords := (r :: rs).filter fun q => lastTs < q.timestamp
          match (sortByTs trulyNewRecords).getLast? with
          | none =>
              some { latestValue := some ((r :: rs).getLast (List.cons_ne_nil r rs)).value
                     newMeta := meta0, writes := [], newRecordCount := none
                     successful := true, addedRecords := 0 }
          | some newest =>
              let sorted := sortByTs trulyNewRecords
              let newMetaV : Meta :=
                { lastTimestamp := newest.timestamp, latestValue := some newest.value,
                  lastUpdated := now }
              if appendOk then
                let c := storedCount.getD 0
                some { latestValue := some newest.value
                       newMeta := some newMetaV
                       writes := sorted.enum.map fun p => (c + p.1, p.2)
                       newRecordCount := some (c + sorted.length)
                       successful := true
                       addedRecords := sorted.length }
              else
                some { latestValue := some newest.value, newMeta := meta0, writes := [],
                       newRecordCount := none, successful := false, addedRecords := 0 }

/-- The persisted per-sensor state the append block can see: the stored log
cells and the `recordCount` counter. -/
structure SensorStore where
  data : Nat → Option Reading
  storedCount : Option Nat

/-- The one read the append block performs:
`countSnapshot.exists() ? countSnapshot.val() : 0`. -/
def readCount (store : SensorStore) : Nat := store.storedCount.getD 0

/-- The multi-location update the append block sends: each record at the
next index after `currentCount`, the new `recordCount`, the `lastUpdated`
stamp, and the new watermark. -/
structure AppendUpdates where
  dataWrites : List (Nat × Reading)
  recordCount : Nat
  lastUpdated : Nat
  meta : Meta
  deriving Repr, DecidableEq

/-- The update object built from the count that was read:
`updates[data/(currentCount + idx)] = record` for each record,
`updates[recordCount] = currentCount + records.length`, plus stamp and
watermark. -/
def appendUpdates (currentCount : Nat) (records : List Reading) (now : Nat)
    (m : Meta) : AppendUpdates :=
  { dataWrites := records.enum.map fun p => (currentCount + p.1, p.2)
    recordCount := currentCount + records.length
    lastUpdated := now
    meta := m }

/-- The full append block: read `recordCount` from the store, then build
the multi-location update from it. -/
def appendStep (store : SensorStore) (records : List Reading) (now : Nat)
    (m : Meta) : AppendUpdates :=
  appendUpdates (readCount store) records now m

/-- The stored log after a successful append of an increment whose writes
land at indices `log.length, log.length + 1, …`: the old cells are untouched
and the new records follow them in order. -/
def appendedLog (log increment : List Reading) : List Reading := log ++ increment

/-- A concrete reading with fixed sensor key and unit, for scenarios. -/
def mkReading (t : Nat) (v : Int) : Reading :=
  { timestamp := t, value := v, sensorKey := "sensor", unit := "mm" }

theorem mergeStep_of_no_new (fetched : List Reading) (w : Meta) (now : Nat)
    (hnone : (fetched.filter fun r => w.lastTimestamp < r.timestamp) = []) :
    mergeStep fetched w now = ([], w) := by
  simp [mergeStep, hnone, sortByTs]

theorem mergeStep_of_newest (fetched : List Reading) (w : Meta) (now : Nat)
    (newest : Reading)
    (hsome : (sortByTs (fetched.filter fun r => w.lastTimestamp < r.timestamp)).getLast?
        = some newest) :
    mergeStep fetched w now =
      (sortByTs (fetched.filter fun r => w.lastTimestamp < r.timestamp),
       { lastTimestamp := newest.timestamp, latestValue := some newest.value,
         lastUpdated := now }) := by
  simp [mergeStep, hsome]

/-- On a non-empty increment, the newest element of the increment exists,
is a member, bounds all timestamps, and determines the new watermark. -/
theorem mergeStep_advances (fetched : List Reading) (w : Meta) (now : Nat)
    (h : (mergeStep fetched w now).1 ≠ []) :
    ∃ newest,
      newest ∈ (mergeStep fetched w now).1
      ∧ (mergeStep fetched w now).2.lastTimestamp = newest.timestamp
      ∧ (mergeStep fetched w now).2.latestValue = some newest.value
      ∧ ∀ q ∈ (mergeStep fetched w now).1, q.timestamp ≤ newest.timestamp := by
  rcases hl : (sortByTs (fetched.filter fun r => w.lastTimestamp < r.timestamp)).getLast?
      with _ | newest
  · exfalso
    apply h
    have hnil := List.getLast?_eq_none_iff.mp hl
    rw [sortByTs_eq_nil_iff] at hnil
    rw [mergeStep_of_no_new fetched w now hnil]
  · have heq := mergeStep_of_newest fetched w now newest hl
    refine ⟨newest, ?_, ?_, ?_, ?_⟩
    · rw [heq]
      exact List.mem_of_getLast?_eq_some hl
    · rw [heq]
    · rw [heq]
    · intro q hq
      rw [heq] at hq
      have hne : (sortByTs (fetched.filter fun r => w.lastTimestamp < r.timestamp)) ≠ [] := by
        intro hc
        rw [hc] at hl
        simp at hl
      have hlast : (sortByTs (fetched.filter fun r => w.lastTimestamp < r.timestamp)).getLast hne
          = newest := by
        have := List.getLast?_eq_getLast _ hne
        rw [hl] at this
        exact (Option.some.injEq _ _ ▸ this.symm)
      calc q.timestamp
          ≤ ((sortByTs (fetched.filter fun r => w.lastTimestamp < r.timestamp)).getLast
              hne).timestamp :=
            timestamp_le_getLast_of_sorted (sortByTs_sorted _) hq hne
        _ = newest.timestamp := by rw [hlast]

/-- C1: for every fetched list and watermark, the merge step's increment is
exactly (as a multiset) the readings strictly newer than
`watermark.lastTimestamp`, sorted ascending by timestamp; when the increment
is non-empty the new watermark's `lastTimestamp` is the maximum timestamp of
the increment and its `latestValue` is the value of a reading at that
timestamp; and the spec's scenario — watermark 100 against fetched
timestamps 90, 100, 110, 120 — yields the increment at 110 and 120 with new
watermark 120 carrying the value fetched at 120. -/
theorem C1_merge_step_correct :
    (∀ (fetched : List Reading) (w : Meta) (now : Nat),
      List.Perm (mergeStep fetched w now).1
        (fetched.filter fun r => w.lastTimestamp < r.timestamp)
      ∧ ((mergeStep fetched w now).1).Sorted tsLE
      ∧ ((mergeStep fetched w now).1 ≠ [] →
          ∃ newest,
            newest ∈ (mergeStep fetched w now).1
            ∧ (mergeStep fetched w now).2.lastTimestamp = newest.timestamp
            ∧ (mergeStep fetched w now).2.latestValue = some newest.value
            ∧ ∀ q ∈ (mergeStep fetched w now).1, q.timestamp ≤ newest.timestamp))
    ∧ mergeStep [mkReading 90 1, mkReading 100 2, mkReading 110 3, mkReading 120 4]
        { lastTimestamp := 100, latestValue := none, lastUpdated := 0 } 7 =
      ([mkReading 110 3, mkReading 120 4],
       { lastTimestamp := 120, latestValue := some 4, lastUpdated := 7 }) := by
  refine ⟨fun fetched w now => ⟨?_, ?_, ?_⟩, ?_⟩
  · exact mergeStep_increment_perm fetched w now
  · exact mergeStep_increment_sorted fetched w now
  · exact mergeStep_advances fetched w now
  · decide

/-- Witness for C1: the non-empty-increment clause discharged at the spec's
scenario input. -/
theorem C1_merge_step_correct_witness :
    ∃ newest,
      newest ∈ (mergeStep
          [mkReading 90 1, mkReading 100 2, mkReading 110 3, mkReading 120 4]
          { lastTimestamp := 100, latestValue := none, lastUpdated := 0 } 7).1
      ∧ (mergeStep
          [mkReading 90 1, mkReading 100 2, mkReading 110 3, mkReading 120 4]
          { lastTimestamp := 100, latestValue := none, lastUpdated := 0 } 7).2.lastTimestamp
          = newest.timestamp
      ∧ (mergeStep
          [mkReading 90 1, mkReading 100 2, mkReading 110 3, mkReading 120 4]
          { lastTimestamp := 100, latestValue := none, lastUpdated := 0 } 7).2.latestValue
          = some newest.value
      ∧ ∀ q ∈ (mergeStep
          [mkReading 90 1, mkReading 100 2, mkReading 110 3, mkReading 120 4]
          { lastTimestamp := 100, latestValue := none, lastUpdated := 0 } 7).1,
          q.timestamp ≤ newest.timestamp :=
  (C1_merge_step_correct.1
      [mkReading 90 1, mkReading 100 2, mkReading 110 3, mkReading 120 4]
      { lastTimestamp := 100, latestValue := none, lastUpdated := 0 } 7).2.2 (by decide)

/-- C2: running the merge step a second time on the same fetched window,
against the watermark the first merge produced, yields an empty increment,
so nothing would be appended twice. -/
theorem C2_merge_idempotent (fetched : List Reading) (w : Meta) (now now2 : Nat) :
    (mergeStep fetched (mergeStep fetched w now).2 now2).1 = [] := by
  rcases hl : (sortByTs (fetched.filter fun r => w.lastTimestamp < r.timestamp)).getLast?
      with _ | newest
  · have hnil := List.getLast?_eq_none_iff.mp hl
    rw [sortByTs_eq_nil_iff] at hnil
    rw [mergeStep_of_no_new fetched w now hnil, mergeStep_of_no_new fetched w now2 hnil]
  · have heq := mergeStep_of_newest fetched w now newest hl
    rw [heq]
    have hne : (sortByTs (fetched.filter fun r => w.lastTimestamp < r.timestamp)) ≠ [] := by
      intro hc
      rw [hc] at hl
      simp at hl
    have hlast : (sortByTs (fetched.filter fun r => w.lastTimestamp < r.timestamp)).getLast hne
        = newest := by
      have := List.getLast?_eq_getLast _ hne
      rw [hl] at this
      exact (Option.some.injEq _ _ ▸ this.symm)
    have hempty : (fetched.filter fun r => newest.timestamp < r.timestamp) = [] := by
      rw [List.filter_eq_nil_iff]
      intro a ha
      simp only [decide_eq_true_eq]
      intro hlt
      have hmemL : a ∈ sortByTs (fetched.filter fun r => w.lastTimestamp < r.timestamp) := by
        refine (sortByTs_perm _).mem_iff.mpr ?_
        refine List.mem_filter.mpr ⟨ha, ?_⟩
        simp only [decide_eq_true_eq]
        have hwn : w.lastTimestamp < newest.timestamp := by
          have hmemN : newest ∈ fetched.filter fun r => w.lastTimestamp < r.timestamp :=
            (sortByTs_perm _).mem_iff.mp (List.mem_of_getLast?_eq_some hl)
          have := (List.mem_filter.mp hmemN).2
          simpa using this
        exact Nat.lt_trans hwn hlt
      have hle : a.timestamp ≤ newest.timestamp := by
        have := timestamp_le_getLast_of_sorted (sortByTs_sorted _) hmemL hne
        rw [hlast] at this
        exact this
      exact Nat.not_lt.mpr hle hlt
    have := mergeStep_of_no_new fetched
        { lastTimestamp := newest.timestamp, latestValue := some newest.value,
          lastUpdated := now } now2 hempty
    rw [this]

/-- C7 counterexample: with watermark 0 and two fetched readings that share
timestamp 10, the merge step's increment keeps both readings, so it does
contain two readings with the same timestamp. -/
theorem C7_counterexample_duplicate_timestamps :
    (mergeStep [mkReading 10 1, mkReading 10 2]
        { lastTimestamp := 0, latestValue := none, lastUpdated := 0 } 0).1
      = [mkReading 10 1, mkReading 10 2]
    ∧ ¬ (((mergeStep [mkReading 10 1, mkReading 10 2]
        { lastTimestamp := 0, latestValue := none, lastUpdated := 0 } 0).1.map
          Reading.timestamp).Nodup) := by
  decide

/-- C7 amended: readings with equal timestamps in the same fetch are not
collapsed; the increment contains exactly as many readings with each
timestamp as the fetched list has strictly above the watermark, and in the
concrete duplicate input both readings at timestamp 10 survive into the
increment. -/
theorem C7_amended_duplicates_retained :
    (∀ (fetched : List Reading) (w : Meta) (now t : Nat),
      ((mergeStep fetched w now).1.countP fun r => r.timestamp == t)
        = ((fetched.filter fun r => w.lastTimestamp < r.timestamp).countP
            fun r => r.timestamp == t))
    ∧ (mergeStep [mkReading 10 1, mkReading 10 2]
        { lastTimestamp := 0, latestValue := none, lastUpdated := 0 } 0).1.map
          Reading.timestamp = [10, 10] := by
  refine ⟨fun fetched w now t => ?_, by decide⟩
  exact (mergeStep_increment_perm fetched w now).countP_eq fun r => r.timestamp == t

/-- C8 counterexample: a strictly sorted one-record log whose greatest
timestamp 5 equals the watermark, appended with the merge increment of a
fetch holding two readings at timestamp 10, yields a log with a duplicated
timestamp. -/
theorem C8_counterexample_duplicate_in_log :
    [mkReading 5 0].Pairwise tsLT
    ∧ (∀ r ∈ [mkReading 5 0], r.timestamp ≤ 5)
    ∧ (5 : Nat) ∈ [mkReading 5 0].map Reading.timestamp
    ∧ ¬ (((appendedLog [mkReading 5 0]
        (mergeStep [mkReading 10 1, mkReading 10 2]
          { lastTimestamp := 5, latestValue := none, lastUpdated := 0 } 0).1).map
          Reading.timestamp).Nodup) := by
  decide

/-- C8 amended: if the stored log is strictly sorted ascending by timestamp
with every stored timestamp at most the watermark, and the fetched window
repeats no timestamp, then after a successful append of the merge increment
the log is again strictly sorted ascending by timestamp — in particular
still sorted and free of duplicate timestamps. -/
theorem C8_amended_append_keeps_strict_order
    (log fetched : List Reading) (w : Meta) (now : Nat)
    (hlog : log.Pairwise tsLT)
    (hbound : ∀ r ∈ log, r.timestamp ≤ w.lastTimestamp)
    (hnodup : (fetched.map Reading.timestamp).Nodup) :
    (appendedLog log (mergeStep fetched w now).1).Pairwise tsLT := by
  rw [appendedLog, List.pairwise_append]
  refine ⟨hlog, ?_, ?_⟩
  · have hsorted : ((mergeStep fetched w now).1).Pairwise tsLE :=
      mergeStep_increment_sorted fetched w now
    have hsub : ((fetched.filter fun r => w.lastTimestamp < r.timestamp).map
        Reading.timestamp).Nodup :=
      hnodup.sublist ((List.filter_sublist fetched).map Reading.timestamp)
    have hincnodup : (((mergeStep fetched w now).1).map Reading.timestamp).Nodup :=
      (((mergeStep_increment_perm fetched w now).map Reading.timestamp).nodup_iff).mpr hsub
    have hpne : ((mergeStep fetched w now).1).Pairwise
        fun a b => a.timestamp ≠ b.timestamp := by
      rw [List.Nodup, List.pairwise_map] at hincnodup
      exact hincnodup
    exact (hsorted.and hpne).imp fun h => Nat.lt_of_le_of_ne h.1 h.2
  · intro a ha b hb
    have hbmem : b ∈ fetched.filter fun r => w.lastTimestamp < r.timestamp :=
      (mergeStep_increment_perm fetched w now).mem_iff.mp hb
    have hwb : w.lastTimestamp < b.timestamp := by
      have := (List.mem_filter.mp hbmem).2
      simpa using this
    exact Nat.lt_of_le_of_lt (hbound a ha) hwb

/-- Witness for C8 amended: a strictly sorted log below watermark 5 and a
duplicate-free fetch keep the appended log strictly sorted. -/
theorem C8_amended_append_keeps_strict_order_witness :
    (appendedLog [mkReading 5 0]
      (mergeStep [mkReading 20 2, mkReading 10 1]
        { lastTimestamp := 5, latestValue := none, lastUpdated := 0 } 3).1).Pairwise tsLT :=
  C8_amended_append_keeps_strict_order [mkReading 5 0] [mkReading 20 2, mkReading 10 1]
    { lastTimestamp := 5, latestValue := none, lastUpdated := 0 } 3
    (by decide) (by decide) (by decide)

/-- C10: when every attempt of the retry loop is answered with HTTP 429,
`fetchSensor` falls off the end of its loop and produces no result object at
all (the JavaScript undefined, modelled as `none`), and the per-sensor step
of `main`, which dereferences `result.data`, then aborts the entire run
(modelled as `none`). -/
theorem C10_rate_limit_exhaustion_aborts_run :
    ∀ (retries : Nat) (meta0 : Option Meta) (count : Option Nat) (ok : Bool) (now : Nat),
      fetchSensorModel (fun _ => AttemptOutcome.rateLimited) "sensor" "mm" retries = none
      ∧ processSensor meta0
          (fetchSensorModel (fun _ => AttemptOutcome.rateLimited) "sensor" "mm" retries)
          count ok now = none := by
  have hfetch : ∀ attempt remaining,
      fetchLoop (fun _ => AttemptOutcome.rateLimited) "sensor" "mm" attempt remaining
        = none := by
    intro attempt remaining
    induction remaining generalizing attempt with
    | zero => rfl
    | succ n ih => simpa [fetchLoop] using ih (attempt + 1)
  intro retries meta0 count ok now
  refine ⟨hfetch 0 retries, ?_⟩
  rw [fetchSensorModel, hfetch 0 retries]
  rfl

/-- C3 at the failing input: with the default three retries and a
rate-limit response on every attempt, `fetchSensor` returns no result
object at all instead of an empty-readings result tagged with the error;
by contrast, a transient failure on every attempt does produce the tagged
empty result the claim describes. -/
theorem C3_fetch_exhaustion_returns_undefined :
    fetchSensorModel (fun _ => AttemptOutcome.rateLimited) "sensor" "mm" 3 = none
    ∧ fetchSensorModel (fun _ => AttemptOutcome.transientFail) "sensor" "mm" 3
        = some { data := [], hasError := true } :=
  ⟨rfl, rfl⟩

theorem enumFrom_shift_map_fst (c : Nat) (records : List Reading) :
    ∀ i : Nat,
      (((records.enumFrom i).map fun p => (c + p.1, p.2)).map Prod.fst)
        = List.range' (c + i) records.length := by
  induction records with
  | nil => intro i; rfl
  | cons a t ih =>
      intro i
      have : c + (i + 1) = c + i + 1 := by omega
      simp only [List.enumFrom_cons, List.map_cons, List.length_cons, List.range'_succ]
      exact congrArg (List.cons (c + i)) (this ▸ ih (i + 1))

/-- C4: a successful append writes the increment's `n` elements, in order,
at positions `recordCount, …, recordCount + n - 1`, and sets `recordCount`
to `recordCount + n`; the update is built from the single `recordCount`
point read, so two stores that agree on `recordCount` produce identical
updates whatever their log cells hold; and appending two records at
`recordCount` 50 writes positions 50 and 51 and sets `recordCount` 52. -/
theorem C4_append_positions_and_count :
    (∀ (store : SensorStore) (records : List Reading) (now : Nat) (m : Meta),
      ((appendStep store records now m).dataWrites.map Prod.fst
          = List.range' (readCount store) records.length
        ∧ (appendStep store records now m).dataWrites.map Prod.snd = records
        ∧ (appendStep store records now m).recordCount
            = readCount store + records.length))
    ∧ (∀ (s₁ s₂ : SensorStore) (records : List Reading) (now : Nat) (m : Meta),
        s₁.storedCount = s₂.storedCount →
        appendStep s₁ records now m = appendStep s₂ records now m)
    ∧ (appendStep { data := fun _ => none, storedCount := some 50 }
          [mkReading 110 3, mkReading 120 4] 9
          { lastTimestamp := 120, latestValue := some 4, lastUpdated := 9 }).dataWrites
        = [(50, mkReading 110 3), (51, mkReading 120 4)]
    ∧ (appendStep { data := fun _ => none, storedCount := some 50 }
          [mkReading 110 3, mkReading 120 4] 9
          { lastTimestamp := 120, latestValue := some 4, lastUpdated := 9 }).recordCount
        = 52 := by
  refine ⟨fun store records now m => ⟨?_, ?_, ?_⟩, fun s₁ s₂ records now m h => ?_, ?_, ?_⟩
  · show ((records.enumFrom 0).map fun p => (readCount store + p.1, p.2)).map Prod.fst
        = List.range' (readCount store) records.length
    have h := enumFrom_shift_map_fst (readCount store) records 0
    rw [Nat.add_zero] at h
    exact h
  · simp [appendStep, appendUpdates, List.map_map, Function.comp_def, List.enum_map_snd]
  · simp [appendStep, appendUpdates]
  · simp only [appendStep, readCount, h]
  · decide
  · decide

/-- Witness for C4: two stores with the same stored count but different log
cells produce the same append update. -/
theorem C4_append_positions_and_count_witness :
    appendStep { data := fun _ => none, storedCount := some 50 } [mkReading 110 3] 9
        { lastTimestamp := 110, latestValue := some 3, lastUpdated := 9 }
      = appendStep { data := fun n => some (mkReading n 0), storedCount := some 50 }
        [mkReading 110 3] 9
        { lastTimestamp := 110, latestValue := some 3, lastUpdated := 9 } :=
  C4_append_positions_and_count.2.1
    { data := fun _ => none, storedCount := some 50 }
    { data := fun n => some (mkReading n 0), storedCount := some 50 }
    [mkReading 110 3] 9
    { lastTimestamp := 110, latestValue := some 3, lastUpdated := 9 } rfl

/-- The effective watermark timestamp of a stored (or absent) meta record:
`lastTimestamps[sensorKey]?.lastTimestamp || 0`. -/
def metaTs (m : Option Meta) : Nat := (m.map Meta.lastTimestamp).getD 0

theorem newest_gt_lastTs {lastTs : Nat} {l : List Reading} {newest : Reading}
    (hlast : (sortByTs (l.filter fun q => lastTs < q.timestamp)).getLast? = some newest) :
    lastTs < newest.timestamp := by
  have hmem : newest ∈ sortByTs (l.filter fun q => lastTs < q.timestamp) :=
    List.mem_of_getLast?_eq_some hlast
  have := (List.mem_filter.mp ((sortByTs_perm _).mem_iff.mp hmem)).2
  simpa using this

/-- C6: for every per-sensor step — fetch failed, nothing new, append
failed, or append succeeded — the persisted watermark timestamp never
decreases, and it changes at all only when the append succeeded and data
writes went with it in the same multi-location update. -/
theorem C6_watermark_monotonic :
    ∀ (meta0 : Option Meta) (result : Option FetchResult) (count : Option Nat)
      (ok : Bool) (now : Nat) (st : StepResult),
      processSensor meta0 result count ok now = some st →
      metaTs meta0 ≤ metaTs st.newMeta
      ∧ (st.newMeta ≠ meta0 → ok = true ∧ st.writes ≠ []) := by
  intro meta0 result count ok now st h
  rcases result with _ | ⟨data, hasError⟩
  · exact absurd h (by simp [processSensor])
  rcases data with _ | ⟨r, rs⟩
  · rcases hv : meta0.bind Meta.latestValue with _ | v
    all_goals
      simp only [processSensor, hv] at h
      obtain rfl := Option.some.inj h
      exact ⟨Nat.le_refl _, fun hne => absurd rfl hne⟩
  · rcases hlast : (sortByTs ((r :: rs).filter
        fun q => (meta0.map Meta.lastTimestamp).getD 0 < q.timestamp)).getLast?
        with _ | newest
    · simp only [processSensor, hlast] at h
      obtain rfl := Option.some.inj h
      exact ⟨Nat.le_refl _, fun hne => absurd rfl hne⟩
    · rcases ok with _ | _
      · simp only [processSensor, hlast, Bool.false_eq_true, if_false] at h
        obtain rfl := Option.some.inj h
        exact ⟨Nat.le_refl _, fun hne => absurd rfl hne⟩
      · simp only [processSensor, hlast, if_true] at h
        obtain rfl := Option.some.inj h
        refine ⟨?_, fun _ => ⟨rfl, ?_⟩⟩
        · exact Nat.le_of_lt (newest_gt_lastTs hlast)
        · have hne : sortByTs ((r :: rs).filter
              fun q => (meta0.map Meta.lastTimestamp).getD 0 < q.timestamp) ≠ [] := by
            intro hc
            rw [hc] at hlast
            simp at hlast
          simp only [ne_eq, List.map_eq_nil_iff, List.enum_eq_nil]
          exact hne

/-- Witness for C6: a successful append of one new reading advances the
watermark from 100 to 110 together with one data write. -/
theorem C6_watermark_monotonic_witness :
    metaTs (some { lastTimestamp := 100, latestValue := some 5, lastUpdated := 0 })
      ≤ metaTs (some { lastTimestamp := 110, latestValue := some 7, lastUpdated := 1000 })
    ∧ ((some { lastTimestamp := 110, latestValue := some 7, lastUpdated := 1000 } : Option Meta)
          ≠ some { lastTimestamp := 100, latestValue := some 5, lastUpdated := 0 } →
        true = true ∧ ([(50, mkReading 110 7)] : List (Nat × Reading)) ≠ []) :=
  C6_watermark_monotonic
    (some { lastTimestamp := 100, latestValue := some 5, lastUpdated := 0 })
    (some { data := [mkReading 110 7], hasError := false }) (some 50) true 1000
    { latestValue := some 7
      newMeta := some { lastTimestamp := 110, latestValue := some 7, lastUpdated := 1000 }
      writes := [(50, mkReading 110 7)], newRecordCount := some 51
      successful := true, addedRecords := 1 } (by decide)

/-- C5 counterexample: with a stored watermark at timestamp 100 carrying
latest value 5, a fetch of one strictly newer reading with value 7, and a
failing append, the run-summary latest value has already been replaced by
7 — it is updated despite the write failure. -/
theorem C5_counterexample_latest_value_updated_on_failure :
    (processSensor (some { lastTimestamp := 100, latestValue := some 5, lastUpdated := 0 })
        (some { data := [mkReading 110 7], hasError := false }) (some 50) false 1000).map
        StepResult.latestValue = some (some 7)
    ∧ ((some 7 : Option Int) ≠ some 5) := by
  decide

/-- C5 amended: when the append fails, the persisted watermark is not
advanced, nothing is written, the record count is untouched, no records are
counted as added, the sensor is not counted successful — but the
run-summary latest value has already been set to the newest filtered
reading's value before the append was attempted, and the run continues. -/
theorem C5_amended_append_failure_keeps_store_but_updates_summary :
    ∀ (meta0 : Option Meta) (res : FetchResult) (count : Option Nat) (now : Nat),
      (processSensor meta0 (some res) count false now).map StepResult.newMeta = some meta0
      ∧ (processSensor meta0 (some res) count false now).map StepResult.writes = some []
      ∧ (processSensor meta0 (some res) count false now).map StepResult.newRecordCount
          = some none
      ∧ (processSensor meta0 (some res) count false now).map StepResult.addedRecords = some 0
      ∧ ((res.data.filter fun q => metaTs meta0 < q.timestamp) ≠ [] →
          (processSensor meta0 (some res) count false now).map StepResult.successful
              = some false
          ∧ (processSensor meta0 (some res) count false now).map StepResult.latestValue
              = some ((sortByTs (res.data.filter
                  fun q => metaTs meta0 < q.timestamp)).getLast?.map Reading.value)) := by
  intro meta0 res count now
  rcases res with ⟨data, hasError⟩
  rcases data with _ | ⟨r, rs⟩
  · rcases hv : meta0.bind Meta.latestValue with _ | v
    all_goals
      simp only [processSensor, hv, Option.map_some, metaTs, List.filter_nil]
      exact ⟨rfl, rfl, rfl, rfl, fun hne => absurd rfl hne⟩
  · rcases hlast : (sortByTs ((r :: rs).filter
        fun q => (meta0.map Meta.lastTimestamp).getD 0 < q.timestamp)).getLast?
        with _ | newest
    · simp only [processSensor, hlast, Option.map_some, metaTs]
      refine ⟨rfl, rfl, rfl, rfl, fun hne => absurd ?_ hne⟩
      have := List.getLast?_eq_none_iff.mp hlast
      rw [sortByTs_eq_nil_iff] at this
      exact this
    · simp only [processSensor, hlast, Bool.false_eq_true, if_false, Option.map_some, metaTs]
      exact ⟨rfl, rfl, rfl, rfl, fun _ => ⟨rfl, rfl⟩⟩

/-- Witness for C5 amended: the failing-append step at watermark 100 with
one newer reading is not counted successful, and its summary value is that
newest reading's value. -/
theorem C5_amended_append_failure_witness :
    (processSensor (some { lastTimestamp := 100, latestValue := some 5, lastUpdated := 0 })
        (some { data := [mkReading 110 7], hasError := false }) (some 50) false 1000).map
        StepResult.successful = some false
    ∧ (processSensor (some { lastTimestamp := 100, latestValue := some 5, lastUpdated := 0 })
        (some { data := [mkReading 110 7], hasError := false }) (some 50) false 1000).map
        StepResult.latestValue
        = some ((sortByTs ([mkReading 110 7].filter fun q =>
            metaTs (some { lastTimestamp := 100, latestValue := some 5, lastUpdated := 0 })
              < q.timestamp)).getLast?.map Reading.value) :=
  (C5_amended_append_failure_keeps_store_but_updates_summary
    (some { lastTimestamp := 100, latestValue := some 5, lastUpdated := 0 })
    { data := [mkReading 110 7], hasError := false } (some 50) 1000).2.2.2.2 (by decide)

/-- C9 counterexample: with watermark 200 and fetched readings at
timestamps 110 then 90 (no new records), the code reports the value of the
last reading in fetch order — value 1 at timestamp 90 — while the last
element of the fetched readings sorted ascending carries value 3. -/
theorem C9_counterexample_latest_value_not_sorted :
    (processSensor (some { lastTimestamp := 200, latestValue := some 9, lastUpdated := 0 })
        (some { data := [mkReading 110 3, mkReading 90 1], hasError := false })
        (some 4) true 1000).map StepResult.latestValue = some (some 1)
    ∧ ((sortByTs [mkReading 110 3, mkReading 90 1]).getLast?).map Reading.value = some 3
    ∧ ((1 : Int) ≠ 3) := by
  decide

/-- C9 amended: on an empty increment the watermark is unchanged; when
upstream returned no readings the summary entry is exactly the previously
stored latest value (absent when none was stored); when upstream returned
readings but none were new, the summary entry is the value of the last
fetched reading in fetch order — not of the fetched readings sorted
ascending by timestamp. -/
theorem C9_amended_empty_increment_latest_value :
    ∀ (meta0 : Option Meta) (res : FetchResult) (count : Option Nat) (ok : Bool) (now : Nat),
      ((res.data.filter fun q => metaTs meta0 < q.timestamp) = [] →
        (processSensor meta0 (some res) count ok now).map StepResult.newMeta = some meta0)
      ∧ (res.data = [] →
          (processSensor meta0 (some res) count ok now).map StepResult.latestValue
            = some (meta0.bind Meta.latestValue))
      ∧ (res.data ≠ [] → (res.data.filter fun q => metaTs meta0 < q.timestamp) = [] →
          (processSensor meta0 (some res) count ok now).map StepResult.latestValue
            = some (res.data.getLast?.map Reading.value)) := by
  intro meta0 res count ok now
  rcases res with ⟨data, hasError⟩
  rcases data with _ | ⟨r, rs⟩
  · rcases hv : meta0.bind Meta.latestValue with _ | v
    all_goals
      simp only [processSensor, hv, Option.map_some]
      exact ⟨fun _ => rfl, fun _ => rfl, fun hne _ => absurd rfl hne⟩
  · rcases hlast : (sortByTs ((r :: rs).filter
        fun q => (meta0.map Meta.lastTimestamp).getD 0 < q.timestamp)).getLast?
        with _ | newest
    · simp only [processSensor, hlast, Option.map_some, metaTs]
      refine ⟨fun _ => rfl, fun hc => absurd hc (List.cons_ne_nil r rs), fun _ _ => ?_⟩
      rw [List.getLast?_eq_getLast (r :: rs) (List.cons_ne_nil r rs)]
      rfl
    · refine ⟨fun hfilter => ?_, fun hc => absurd hc (List.cons_ne_nil r rs),
        fun _ hfilter => ?_⟩
      all_goals
        exfalso
        rw [metaTs] at hfilter
        rw [hfilter] at hlast
        simp [sortByTs] at hlast

/-- Witness for C9 amended: at watermark 200 with fetched timestamps 110
then 90, the empty increment leaves the watermark alone and the summary
entry is the value of the last fetched reading in fetch order. -/
theorem C9_amended_empty_increment_witness :
    (processSensor (some { lastTimestamp := 200, latestValue := some 9, lastUpdated := 0 })
        (some { data := [mkReading 110 3, mkReading 90 1], hasError := false })
        (some 4) true 1000).map StepResult.latestValue
      = some (([mkReading 110 3, mkReading 90 1] : List Reading).getLast?.map Reading.value) :=
  (C9_amended_empty_increment_latest_value
    (some { lastTimestamp := 200, latestValue := some 9, lastUpdated := 0 })
    { data := [mkReading 110 3, mkReading 90 1], hasError := false }
    (some 4) true 1000).2.2 (by decide) (by decide)

end WeatherFetch
